import Mathlib

set_option maxHeartbeats 1000000
set_option maxRecDepth 16000

/-!
Verification of the Maschine Mikro MK3 userspace MIDI driver.

The definitions below are a shallow embedding of the driver's translation
engine, translated from the Rust sources:
  crates/driver/src/main.rs        (main_loop, handle_sysex, render_screen_text,
                                    send_cc, send_note, create_midi_input)
  crates/driver/src/settings.rs    (Settings::validate, default note map)
  crates/maschine_library/src/screen.rs  (Screen)
  crates/maschine_library/src/font.rs    (Font, glyph tables)

Machine integers are modelled as Nat with explicit wrap-around where the Rust
code wraps (u8 wrapping_sub); fallible operations (Rust panics: out-of-bounds
indexing, Option::unwrap on None) are modelled with Except.

crates/maschine_library/src/controls.rs and lights.rs are not part of the
source tree; the few items from them that the driver uses (PadEventType,
Brightness, PadColors, the Lights state) are modelled from the spec and are
marked as such in their doc comments.
-/

/-! ## MIDI constants and encoders (main.rs) -/

def BUTTON_CC_OFFSET : Nat := 20

def ENCODER_CC : Nat := 1

def SLIDER_CC : Nat := 9

/-- `send_cc` (main.rs): the 3-byte Control-Change message `0xB0 cc value`
(channel 0). -/
def send_cc (cc value : Nat) : List Nat := [0xB0, cc, value]

/-- `send_note` (main.rs): 3-byte Note message; status `0x90` (Note On) when
`on` and the velocity is nonzero, else `0x80` (Note Off); channel 0. -/
def send_note (note velocity : Nat) (onFlag : Bool) : List Nat :=
  [if onFlag && velocity > 0 then 0x90 else 0x80, note, velocity]

/-! ## Encoder handling (main.rs, main_loop lines 694-738) -/

/-- `u8::wrapping_sub` on byte values. -/
def wrappingSubU8 (a b : Nat) : Nat := (a % 256 + 256 - b % 256) % 256

/-- The encoder delta computation of main_loop:
`diff = cur.wrapping_sub(prev) & 0x0f`, then `if diff < 8 { diff } else { diff - 16 }`
(the cast `diff as i8` is exact since `diff < 16`). -/
def encDelta (prev cur : Nat) : Int :=
  let diff := wrappingSubU8 cur prev &&& 0x0f
  if diff < 8 then (diff : Int) else (diff : Int) - 16

/-- `(64i16 + delta as i16).clamp(0, 127) as u8` from main_loop. -/
def clampCc (x : Int) : Nat := (min 127 (max 0 x)).toNat

/-- Encoder-relevant part of the per-iteration state of main_loop:
`state.encoder_pos` and `suppress_encoder_until`.  Time is an abstract
millisecond counter (`Instant`). -/
structure EncState where
  encoderPos : Option Nat
  suppressUntil : Option Nat
deriving DecidableEq, Repr

/-- Per-iteration inputs to the encoder handling: the current instant, whether
the EncoderTouch button transitioned to pressed in this report's button scan,
and the raw encoder byte `buf[7]`. -/
structure EncInput where
  now : Nat
  touchJustPressed : Bool
  encoderRaw : Nat
deriving DecidableEq, Repr

/-- One main_loop iteration's encoder handling (main.rs lines 706-738):
set `suppress_encoder_until` on a touch rising edge, then either resynchronize
the position without emitting (touch frame, suppression window, or first
observation) or emit one Control-Change on `ENCODER_CC` for a nonzero delta. -/
def encoderStep (s : EncState) (inp : EncInput) : EncState × Option (List Nat) :=
  let s1 := if inp.touchJustPressed then
              { s with suppressUntil := some (inp.now + 120) } else s
  let suppressed := match s1.suppressUntil with
    | some u => decide (inp.now < u)
    | none => false
  let cur := inp.encoderRaw &&& 0x0f
  if inp.touchJustPressed || suppressed then
    ({ s1 with encoderPos := some cur }, none)
  else
    match s1.encoderPos with
    | some prev =>
        let delta := encDelta prev cur
        if delta ≠ 0 then
          ({ s1 with encoderPos := some cur },
           some (send_cc ENCODER_CC (clampCc (64 + delta))))
        else
          ({ s1 with encoderPos := some cur }, none)
    | none => ({ s1 with encoderPos := some cur }, none)

/-- Outputs of a sequence of type-0x01 reports' encoder handling. -/
def encoderTrace (s : EncState) : List EncInput → List (Option (List Nat))
  | [] => []
  | inp :: rest =>
      let r := encoderStep s inp
      r.2 :: encoderTrace r.1 rest

/-! ## Slider handling (main.rs, main_loop lines 741-760) -/

/-- `Brightness` --
Modelled from the spec: crates/maschine_library/src/lights.rs is not in the
source tree; the spec names the four LED brightness levels off/dim/normal/bright
used by the slider chase, button LEDs and pad LEDs. -/
inductive Brightness where
  | Off
  | Dim
  | Normal
  | Bright
deriving DecidableEq, Repr

/-- The 25-segment chase pattern recomputation (main.rs lines 750-758):
`cnt = (raw - 1 + 5) * 25 / 200 - 1` in `i32`, and per segment `i` the match
`cnt - i`: `0 => Normal, 1..=25 => Dim, _ => Off`. -/
def sliderCnt (raw : Nat) : Int := ((raw : Int) - 1 + 5) * 25 / 200 - 1

def sliderChase (raw : Nat) : List Brightness :=
  (List.range 25).map (fun i =>
    let d := sliderCnt raw - (i : Int)
    if d = 0 then Brightness.Normal
    else if 1 ≤ d ∧ d ≤ 25 then Brightness.Dim
    else Brightness.Off)

/-- Slider part of a main_loop iteration (lines 741-760): acts only when
`slider_raw` is nonzero and differs from `state.slider_value`; emits one
Control-Change with value `((raw - 1) * 127 / 200).min(127)` (u16 arithmetic)
and recomputes the chase pattern.  Returns the new `state.slider_value`, the
emitted message if any, and the recomputed pattern if any. -/
def sliderStep (last raw : Nat) :
    Nat × Option (List Nat) × Option (List Brightness) :=
  if raw ≠ 0 ∧ raw ≠ last then
    (raw, some (send_cc SLIDER_CC (min ((raw - 1) * 127 / 200) 127)),
     some (sliderChase raw))
  else
    (last, none, none)

/-! ## Pads (main.rs, main_loop lines 761-807) -/

/-- `PadColors`: the 18 named pad colors, as listed in main.rs
`velocity_to_color` (lights.rs itself is not in the source tree). -/
inductive PadColors where
  | Off | Red | Orange | LightOrange | WarmYellow | Yellow | Lime | Green
  | Mint | Cyan | Turquoise | Blue | Plum | Violet | Purple | Magenta
  | Fuchsia | White
deriving DecidableEq, Repr

/-- `PadEventType` --
Modelled from the spec: crates/maschine_library/src/controls.rs is not in the
source tree.  The spec (section 4.1) names exactly five pad event kinds carried
in the high nibble of a pad record's second byte: NoteOn, NoteOff, Aftertouch,
PressOn, PressOff; the `#[allow(unreachable_patterns)]` wildcard arm in
main_loop indicates the enum has no further variants. -/
inductive PadEventType where
  | NoteOn | NoteOff | Aftertouch | PressOn | PressOff
deriving DecidableEq, Repr

/-- `num::FromPrimitive::from_u8` for PadEventType.
Modelled from the spec: the concrete nibble discriminants are not given by the
spec, so five distinct representative nibble values are fixed here (0x10,
0x20, 0x30, 0x40, 0x50); with only five variants for sixteen possible nibble
values, some nibbles (e.g. 0xF0) decode to none under any assignment. -/
def padEventFromU8 (evt : Nat) : Option PadEventType :=
  if evt = 0x10 then some .NoteOn
  else if evt = 0x20 then some .NoteOff
  else if evt = 0x30 then some .Aftertouch
  else if evt = 0x40 then some .PressOn
  else if evt = 0x50 then some .PressOff
  else none

/-- `Lights` --
Modelled from the spec: the LedState record holds per-pad color+brightness for
16 pads, per-button brightness for 41 buttons, and 25 slider-segment
brightnesses.  Reading a pad past the fixed 16-entry array is a Rust panic,
modelled as Except.error. -/
structure Lights where
  pads : List (PadColors × Brightness)
  buttons : List Brightness
  sliders : List Brightness
deriving DecidableEq, Repr

def Lights.new : Lights :=
  ⟨List.replicate 16 (PadColors.Off, Brightness.Off),
   List.replicate 41 Brightness.Off,
   List.replicate 25 Brightness.Off⟩

def Lights.get_pad (l : Lights) (idx : Nat) :
    Except String (PadColors × Brightness) :=
  match l.pads[idx]? with
  | some pb => .ok pb
  | none => .error "index out of bounds"

/-- In main_loop `set_pad` is only reached after `get_pad` succeeded at the
same index, so the in-bounds `List.set` suffices here. -/
def Lights.set_pad (l : Lights) (idx : Nat) (c : PadColors) (b : Brightness) :
    Lights :=
  { l with pads := l.pads.set idx (c, b) }

/-- The default note map from settings.rs (16 entries, validated by
`Settings::validate` to have exactly 16 entries below 128). -/
def defaultNotemaps : List Nat :=
  [48, 49, 50, 51, 44, 45, 46, 47, 40, 41, 42, 43, 36, 37, 38, 39]

/-- One 3-byte pad record of a type-0x02 report (main_loop lines 763-807):
`from_u8(evt).unwrap()` (a panic on an unknown nibble, modelled as error),
then the LED brightness update (changed only when it differs from the pad's
previous brightness), then the outgoing MIDI note from
`settings.notemaps[idx]` (an out-of-bounds panic for idx >= 16, modelled as
error) with velocity `val >> 5` floored to 1 when `val` is nonzero.  Returns
the new lights, the changed flag, and the emitted MIDI messages. -/
def processPadRecord (notemaps : List Nat) (lights : Lights)
    (idx evt val : Nat) : Except String (Lights × Bool × List (List Nat)) := do
  let pad_evt ← match padEventFromU8 evt with
    | some pe => Except.ok pe
    | none => Except.error "called Option::unwrap() on a None value"
  let pb ← lights.get_pad idx
  let prev_b := pb.2
  let b := match pad_evt with
    | .NoteOn | .PressOn => Brightness.Normal
    | .NoteOff | .PressOff => Brightness.Off
    | .Aftertouch => if val > 0 then Brightness.Normal else Brightness.Off
  let st := if prev_b ≠ b
    then (Lights.set_pad lights idx PadColors.Blue b, true)
    else (lights, false)
  let note ← match notemaps[idx]? with
    | some n => Except.ok n
    | none => Except.error "index out of bounds"
  let velocity := val >>> 5
  let velocity := if val > 0 ∧ velocity = 0 then 1 else velocity
  let msgs := match pad_evt with
    | .NoteOn | .PressOn => [send_note note velocity true]
    | .NoteOff | .PressOff => [send_note note velocity false]
    | .Aftertouch => []
  Except.ok (st.1, st.2, msgs)

/-! ## Inbound MIDI Control-Change (main.rs, create_midi_input lines 498-527) -/

/-- `num::FromPrimitive::from_usize` for Buttons --
Modelled from the spec: controls.rs is not in the source tree; the spec fixes
41 logical buttons (indices 0..40), so the conversion succeeds exactly for
indices below 41. -/
def buttonFromUsize (idx : Nat) : Option Nat :=
  if idx < 41 then some idx else none

/-- The brightness selected by an inbound CC value (create_midi_input):
thresholds dim 1-42 / normal 43-84 / bright 85-127 / off, with the
backlight ("night mode") override replacing an explicit Off. -/
def ccBrightness (backlightEnabled : Bool) (backlightLevel : Brightness)
    (value : Nat) : Brightness :=
  let brightness :=
    if value > 0 then
      if 1 ≤ value ∧ value ≤ 42 then Brightness.Dim
      else if 43 ≤ value ∧ value ≤ 84 then Brightness.Normal
      else if 85 ≤ value ∧ value ≤ 127 then Brightness.Bright
      else Brightness.Off
    else Brightness.Off
  if backlightEnabled ∧ brightness = Brightness.Off then backlightLevel
  else brightness

/-- The 0xB0 (Control-Change) branch of the MIDI input callback: a CC in
[20, 61) maps back to a logical button; if the button has an LED
(`button_has_light`, a device property abstracted as a predicate since
lights.rs is not in the source tree) the stored brightness is `ccBrightness`.
Returns the button index and stored brightness, or none when filtered out. -/
def midiCcLedUpdate (hasLight : Nat → Bool) (backlightEnabled : Bool)
    (backlightLevel : Brightness) (cc value : Nat) : Option (Nat × Brightness) :=
  if BUTTON_CC_OFFSET ≤ cc ∧ cc < BUTTON_CC_OFFSET + 41 then
    match buttonFromUsize (cc - BUTTON_CC_OFFSET) with
    | some btn =>
      if hasLight btn then
        some (btn, ccBrightness backlightEnabled backlightLevel value)
      else none
    | none => none
  else none

/-! ## Screen (maschine_library/src/screen.rs) -/

/-- The packed display buffer `buffer: [u8; 512]`, modelled as a list of
bytes.  512 bytes hold 128 columns times 4 row-chunks of 8 rows each. -/
abbrev Screen := List Nat

/-- `Screen::new`: the buffer starts all-ones (= blank). -/
def Screen.new : Screen := List.replicate 512 0xFF

/-- `Screen::reset`: `self.buffer.fill(0xff)`. -/
def Screen.reset (s : Screen) : Screen := s.map (fun _ => 0xFF)

/-- The byte index `(i / 8) * 128 + j` used by `Screen::get` and
`Screen::set`. -/
def Screen.byteIndex (i j : Nat) : Nat := (i / 8) * 128 + j

/-- The single-bit mask `1 << (i % 8)`. -/
def Screen.mask (i : Nat) : Nat := 1 <<< (i % 8)

/-- `Screen::set` (in-bounds behavior): clear the bit to light the pixel,
set it to blank it (`&= !mask` on u8 is `&&& (mask ^^^ 255)`). -/
def Screen.set (s : Screen) (i j : Nat) (val : Bool) : Screen :=
  let idx := Screen.byteIndex i j
  let b := s.getD idx 0
  List.set s idx (if val then b &&& (Screen.mask i ^^^ 255) else b ||| Screen.mask i)

/-- `Screen::set` with the Rust bounds check made explicit: indexing
`self.buffer[idx]` with `idx >= buffer.len()` is a panic, modelled as
Except.error; in bounds it is `Screen.set`. -/
def Screen.setChecked (s : Screen) (i j : Nat) (val : Bool) :
    Except String Screen :=
  if Screen.byteIndex i j < s.length then Except.ok (Screen.set s i j val)
  else Except.error "index out of bounds"

/-- `Screen::get`: the pixel test (`val == 0`, a clear bit is a lit pixel). -/
def Screen.get (s : Screen) (i j : Nat) : Bool :=
  (s.getD (Screen.byteIndex i j) 0) &&& Screen.mask i == 0

/-! ## Font (maschine_library/src/font.rs) -/

/-- A glyph `[&[u8; 8]; 8]`: 8 rows of 8 bytes, written as strings in which a
non-space byte is a lit pixel. -/
abbrev Glyph := List String

/-- The `DIGITS` glyph table (font.rs), one 8x8 glyph per entry; a
non-space byte is a lit pixel. -/
def DIGITS : List Glyph := [
  ["   xxx  ", "  x   x ", " x     x", " x     x", " x     x", " x     x", "  x   x ", "   xxx  "],
  ["     xx ", "     xx ", "    x x ", "  xx  x ", "      x ", "      x ", "      x ", "  xxxxxx"],
  ["   xxxx ", " x     x", " x     x", "      x ", "    x   ", "  x     ", " x      ", " xxxxxxx"],
  ["  xxxxx ", " x     x", "      x ", "   xxxx ", "       x", "       x", " x    x ", "  xxxx  "],
  [" x     x", " x     x", " x     x", " x    xx", "  xxxx x", "       x", "       x", "       x"],
  [" xxxxxxx", " x      ", " x      ", " xxxxxx ", "       x", "       x", "       x", " xxxxxx "],
  ["  xxxxx ", " x     x", " x      ", " x xxx  ", " xx   xx", " x     x", " x     x", "  xxxxx "],
  [" xxxxxxx", "       x", "       x", "      x ", "     x  ", "    x   ", "   x    ", "  x     "],
  ["  xxxxx ", " x     x", " x     x", "  xxxxx ", " x     x", " x     x", " x     x", "  xxxxx "],
  ["  xxxxx ", " x     x", " x     x", " x     x", "  xxxxxx", "       x", " x     x", "  xxxxx "]]

/-- The `LETTERS` glyph table (font.rs), one 8x8 glyph per entry; a
non-space byte is a lit pixel. -/
def LETTERS : List Glyph := [
  ["   xx   ", "  x  x  ", " x    x ", " x    x ", " xxxxxx ", " x    x ", " x    x ", " x    x "],
  [" xxxxx  ", " x    x ", " x    x ", " xxxxx  ", " x    x ", " x    x ", " x    x ", " xxxxx  "],
  ["  xxxx  ", " x    x ", " x      ", " x      ", " x      ", " x      ", " x    x ", "  xxxx  "],
  [" xxxx   ", " x   x  ", " x    x ", " x    x ", " x    x ", " x    x ", " x   x  ", " xxxx   "],
  [" xxxxxx ", " x      ", " x      ", " xxxxx  ", " x      ", " x      ", " x      ", " xxxxxx "],
  [" xxxxxx ", " x      ", " x      ", " xxxxx  ", " x      ", " x      ", " x      ", " x      "],
  ["  xxxx  ", " x    x ", " x      ", " x      ", " x  xxx ", " x    x ", " x    x ", "  xxxx  "],
  [" x    x ", " x    x ", " x    x ", " xxxxxx ", " x    x ", " x    x ", " x    x ", " x    x "],
  ["  xxxxx ", "    x   ", "    x   ", "    x   ", "    x   ", "    x   ", "    x   ", "  xxxxx "],
  ["   xxxx ", "     x  ", "     x  ", "     x  ", "     x  ", " x   x  ", " x   x  ", "  xxx   "],
  [" x    x ", " x   x  ", " x  x   ", " xxx    ", " x  x   ", " x   x  ", " x    x ", " x    x "],
  [" x      ", " x      ", " x      ", " x      ", " x      ", " x      ", " x      ", " xxxxxx "],
  [" x    x ", " xx  xx ", " x xx x ", " x    x ", " x    x ", " x    x ", " x    x ", " x    x "],
  [" x    x ", " xx   x ", " x x  x ", " x  x x ", " x   xx ", " x    x ", " x    x ", " x    x "],
  ["  xxxx  ", " x    x ", " x    x ", " x    x ", " x    x ", " x    x ", " x    x ", "  xxxx  "],
  [" xxxxx  ", " x    x ", " x    x ", " xxxxx  ", " x      ", " x      ", " x      ", " x      "],
  ["  xxxx  ", " x    x ", " x    x ", " x    x ", " x    x ", " x  x x ", " x   x  ", "  xxx x "],
  [" xxxxx  ", " x    x ", " x    x ", " xxxxx  ", " x  x   ", " x   x  ", " x    x ", " x    x "],
  ["  xxxx  ", " x    x ", " x      ", "  xxxx  ", "      x ", "      x ", " x    x ", "  xxxx  "],
  [" xxxxxx ", "   x    ", "   x    ", "   x    ", "   x    ", "   x    ", "   x    ", "   x    "],
  [" x    x ", " x    x ", " x    x ", " x    x ", " x    x ", " x    x ", " x    x ", "  xxxx  "],
  [" x    x ", " x    x ", " x    x ", " x    x ", " x    x ", "  x  x  ", "  x  x  ", "   xx   "],
  [" x    x ", " x    x ", " x    x ", " x    x ", " x    x ", " x xx x ", " xx  xx ", " x    x "],
  [" x    x ", " x    x ", "  x  x  ", "   xx   ", "   xx   ", "  x  x  ", " x    x ", " x    x "],
  [" x    x ", " x    x ", "  x  x  ", "   xx   ", "   x    ", "   x    ", "   x    ", "   x    "],
  [" xxxxxx ", "      x ", "     x  ", "    x   ", "   x    ", "  x     ", " x      ", " xxxxxx "]]
/-- The byte `glyph[r][c]` (blank-padded out of range). -/
def glyphRowChar (g : Glyph) (r c : Nat) : Char :=
  ((g.getD r "").toList).getD c ' '

/-- The pixel bit `glyph[i / scale][j / scale] != b' '` of `Font::write_glyph`. -/
def glyphBit (g : Glyph) (r c : Nat) : Bool := glyphRowChar g r c != ' '

/-- The glyph selection of `Font::write_char` (font.rs lines 423-431):
digits and letters only, lowercase folded onto uppercase; anything else is
skipped. -/
def Font.glyphFor (ch : Char) : Option Glyph :=
  if '0' ≤ ch ∧ ch ≤ '9' then DIGITS[ch.toNat - '0'.toNat]?
  else if 'A' ≤ ch ∧ ch ≤ 'Z' then LETTERS[ch.toNat - 'A'.toNat]?
  else if 'a' ≤ ch ∧ ch ≤ 'z' then LETTERS[ch.toNat - 'a'.toNat]?
  else none

/-- `Font::write_glyph` (in-bounds writes): the nested loops over
`0..8*scale`. -/
def Font.write_glyph (s : Screen) (y x : Nat) (g : Glyph) (scale : Nat) :
    Screen :=
  (List.range (8 * scale)).foldl (fun s i =>
    (List.range (8 * scale)).foldl (fun s j =>
      Screen.set s (i + y) (j + x) (glyphBit g (i / scale) (j / scale))) s) s

/-- `Font::write_char` (in-bounds writes). -/
def Font.write_char (s : Screen) (y x : Nat) (ch : Char) (scale : Nat) :
    Screen :=
  match Font.glyphFor ch with
  | some g => Font.write_glyph s y x g scale
  | none => s

/-- `Font::write_str` (in-bounds writes): char i is drawn at
`x + i * char_width` with `char_width = 8 * scale`. -/
def Font.write_str (s : Screen) (y x : Nat) (text : List Char) (scale : Nat) :
    Screen :=
  (text.enum).foldl
    (fun s p => Font.write_char s y (x + p.1 * (8 * scale)) p.2 scale) s

/-- `Font::write_glyph` with the bounds check of `Screen::set` explicit. -/
def Font.write_glyphChecked (s : Screen) (y x : Nat) (g : Glyph)
    (scale : Nat) : Except String Screen :=
  (List.range (8 * scale)).foldlM (fun s i =>
    (List.range (8 * scale)).foldlM (fun s j =>
      Screen.setChecked s (i + y) (j + x) (glyphBit g (i / scale) (j / scale))) s) s

/-- `Font::write_char` with the bounds check explicit. -/
def Font.write_charChecked (s : Screen) (y x : Nat) (ch : Char)
    (scale : Nat) : Except String Screen :=
  match Font.glyphFor ch with
  | some g => Font.write_glyphChecked s y x g scale
  | none => Except.ok s

/-- `Font::write_str` with the bounds check explicit. -/
def Font.write_strChecked (s : Screen) (y x : Nat) (text : List Char)
    (scale : Nat) : Except String Screen :=
  (text.enum).foldlM
    (fun s p => Font.write_charChecked s y (x + p.1 * (8 * scale)) p.2 scale) s

/-! ## Screen text rendering and SysEx decoding (main.rs) -/

/-- `render_screen_text` (main.rs lines 579-595): reset the buffer, then
write the text at Y_POSITION = 12, horizontally centered when narrower than
the 128-pixel screen width (SCALE = 1). -/
def render_screen_text (text : List Char) (s : Screen) : Screen :=
  let text_width := text.length * 8 * 1
  let x_start := if text_width < 128 then (128 - text_width) / 2 else 0
  Font.write_str (Screen.reset s) 12 x_start text 1

/-- `render_screen_text` with the bounds check of `Screen::set` explicit. -/
def render_screen_textChecked (text : List Char) (s : Screen) :
    Except String Screen :=
  let text_width := text.length * 8 * 1
  let x_start := if text_width < 128 then (128 - text_width) / 2 else 0
  Font.write_strChecked (Screen.reset s) 12 x_start text 1

def SYSEX_MANUFACTURER : List Nat := [0x00, 0x21, 0x09]

def SYSEX_CMD_TEXT : Nat := 0x01

def SYSEX_CMD_CLEAR : Nat := 0x02

/-- `handle_sysex` (main.rs lines 538-576), its effect on the screen buffer:
frames shorter than 6 bytes, frames with a wrong 3-byte vendor prefix at
offset 1, and frames with an unknown command byte leave the buffer untouched;
command 0x01 renders the payload bytes `message[5 .. len-1]` as text
(`String::from_utf8_lossy`, modelled byte-per-char, which agrees on ASCII);
command 0x02 resets the buffer. -/
def handle_sysex (message : List Nat) (s : Screen) : Screen :=
  if message.length < 6 then s
  else if (message.drop 1).take 3 ≠ SYSEX_MANUFACTURER then s
  else
    let cmd := message.getD 4 0
    if cmd = SYSEX_CMD_TEXT then
      let text_bytes := (message.take (message.length - 1)).drop 5
      render_screen_text (text_bytes.map Char.ofNat) s
    else if cmd = SYSEX_CMD_CLEAR then
      Screen.reset s
    else s

/-- The expected pixel of a rendered text block at row r, column c (both
relative to the block's top-left corner): bit (r, c % 8) of the glyph-table
entry for character c / 8 of the text. -/
def textPixel (text : List Char) (r c : Nat) : Bool :=
  match Font.glyphFor (text.getD (c / 8) ' ') with
  | some g => glyphBit g r (c % 8)
  | none => false

/-- With no suppression window and no touch press, the encoder step from a
known position reduces to the plain delta computation (independent of the
current instant). -/
theorem encoderStep_plain (prev now raw : Nat) :
    encoderStep ⟨some prev, none⟩ ⟨now, false, raw⟩ =
      (let cur := raw &&& 0x0f
       let delta := encDelta prev cur
       if delta ≠ 0 then
         (⟨some cur, none⟩, some (send_cc ENCODER_CC (clampCc (64 + delta))))
       else (⟨some cur, none⟩, none)) := rfl

theorem c1_aux :
    ∀ prev < 16, ∀ cur < 16,
      (encDelta prev cur =
        (let d := ((cur : Int) - (prev : Int)) % 16; if d < 8 then d else d - 16)) ∧
      (encDelta prev cur = 0 ↔ prev = cur) ∧
      ((let delta := encDelta prev (cur &&& 0x0f)
        if delta ≠ 0 then
          (EncState.mk (some (cur &&& 0x0f)) none,
           some (send_cc ENCODER_CC (clampCc (64 + delta))))
        else (EncState.mk (some (cur &&& 0x0f)) none, none) :
          EncState × Option (List Nat)).2 =
        if encDelta prev cur ≠ 0 then
          some [0xB0, ENCODER_CC, clampCc (64 + encDelta prev cur)]
        else none) := by
  decide

/-- C1: for every pair of 4-bit encoder positions (prev, cur) in [0,15], the
signed delta computed by the decoder equals ((cur - prev) mod 16) mapped into
[-8,+7] (diff if diff < 8, else diff - 16), is exactly 0 iff prev = cur, and
a Control-Change on the fixed encoder controller `ENCODER_CC` with value
clamp(64 + delta, 0, 127) is emitted if and only if the delta is nonzero. -/
theorem c1_encoder_delta :
    ∀ now prev cur : Nat, prev < 16 → cur < 16 →
      (encDelta prev cur =
        (let d := ((cur : Int) - (prev : Int)) % 16; if d < 8 then d else d - 16)) ∧
      (encDelta prev cur = 0 ↔ prev = cur) ∧
      ((encoderStep ⟨some prev, none⟩ ⟨now, false, cur⟩).2 =
        if encDelta prev cur ≠ 0 then
          some [0xB0, ENCODER_CC, clampCc (64 + encDelta prev cur)]
        else none) := by
  intro now prev cur hp hc
  have h := c1_aux prev hp cur hc
  exact ⟨h.1, h.2.1, by rw [encoderStep_plain]; exact h.2.2⟩

/-- Witness for C1 at now = 0, prev = 15, cur = 1 (wrap-around: delta +2,
emitted value 66). -/
theorem c1_encoder_delta_witness :
    (15 : Nat) < 16 ∧ (1 : Nat) < 16 ∧
    encDelta 15 1 = 2 ∧
    (encoderStep ⟨some 15, none⟩ ⟨0, false, 1⟩).2 = some [0xB0, ENCODER_CC, 66] := by
  refine ⟨by decide, by decide, by decide, ?_⟩
  have h := (c1_encoder_delta 0 15 1 (by decide) (by decide)).2.2
  rw [h]
  decide

/-- Every branch of `encoderStep` leaves `suppressUntil` as set by the
touch-press check: a touch rising edge arms the 120 ms window, nothing else
ever changes it. -/
theorem encoderStep_suppressUntil (s : EncState) (inp : EncInput) :
    (encoderStep s inp).1.suppressUntil =
      (if inp.touchJustPressed then some (inp.now + 120) else s.suppressUntil) := by
  rcases s with ⟨pos, su⟩
  cases htp : inp.touchJustPressed <;> cases pos <;> cases su <;>
    simp [encoderStep, htp,
      apply_ite (fun p : EncState × Option (List Nat) => p.1.suppressUntil)]

/-- A suppressed (or touch-press) iteration emits nothing and resynchronizes
the position. -/
theorem encoderStep_suppressed (s : EncState) (inp : EncInput)
    (h : inp.touchJustPressed = true ∨
         ∃ u, s.suppressUntil = some u ∧ inp.now < u) :
    (encoderStep s inp).2 = none ∧
    (encoderStep s inp).1.encoderPos = some (inp.encoderRaw &&& 0x0f) := by
  rcases s with ⟨pos, su⟩
  rcases h with htp | ⟨u, hsu, hu⟩
  · simp [encoderStep, htp]
  · cases htp : inp.touchJustPressed
    · simp only at hsu
      subst hsu
      simp [encoderStep, htp, hu]
    · simp [encoderStep, htp]

/-- C3: (1) a rising edge on the encoder-touch button starts a 120 ms
suppression window and that frame emits nothing, only resynchronizing the
position; (2) along any sequence of type-0x01 reports whose instants lie at or
after the window's start (D - 120), every report processed strictly before the
window's deadline D emits no encoder Control-Change, regardless of the raw
position; (3) at or after the deadline (strictly after the window), a report
with a nonzero delta emits the encoder Control-Change again. -/
theorem c3_encoder_touch_window :
    (∀ (s : EncState) (inp : EncInput), inp.touchJustPressed = true →
       (encoderStep s inp).1.suppressUntil = some (inp.now + 120) ∧
       (encoderStep s inp).2 = none ∧
       (encoderStep s inp).1.encoderPos = some (inp.encoderRaw &&& 0x0f)) ∧
    (∀ (D : Nat) (inps : List EncInput), (∀ inp ∈ inps, D ≤ inp.now + 120) →
       ∀ (s : EncState) (u : Nat), s.suppressUntil = some u → D ≤ u →
       ∀ k, k < inps.length → (inps.getD k ⟨0, false, 0⟩).now < D →
         (encoderTrace s inps).getD k none = none) ∧
    (∀ (s : EncState) (inp : EncInput) (u prev : Nat),
       inp.touchJustPressed = false → s.suppressUntil = some u → u ≤ inp.now →
       s.encoderPos = some prev →
       encDelta prev (inp.encoderRaw &&& 0x0f) ≠ 0 →
       (encoderStep s inp).2 =
         some (send_cc ENCODER_CC
           (clampCc (64 + encDelta prev (inp.encoderRaw &&& 0x0f))))) := by
  refine ⟨?_, ?_, ?_⟩
  · intro s inp htp
    have h1 := encoderStep_suppressUntil s inp
    have h2 := encoderStep_suppressed s inp (Or.inl htp)
    rw [htp] at h1
    exact ⟨by simpa using h1, h2.1, h2.2⟩
  · intro D inps
    induction inps with
    | nil =>
        intro _ s u _ _ k hk
        simp at hk
    | cons a rest ih =>
        intro hall s u hsu hDu k hk hnow
        have harm : D ≤ a.now + 120 := hall a (List.mem_cons_self a rest)
        have hrest : ∀ inp ∈ rest, D ≤ inp.now + 120 :=
          fun inp hm => hall inp (List.mem_cons_of_mem a hm)
        cases k with
        | zero =>
            simp only [List.getD_cons_zero] at hnow
            have := encoderStep_suppressed s a
              (Or.inr ⟨u, hsu, lt_of_lt_of_le hnow hDu⟩)
            simp [encoderTrace, this.1]
        | succ k =>
            have hsu' := encoderStep_suppressUntil s a
            simp only [List.length_cons, Nat.succ_lt_succ_iff] at hk
            simp only [List.getD_cons_succ] at hnow
            simp only [encoderTrace, List.getD_cons_succ]
            cases htp : a.touchJustPressed
            · simp only [htp, Bool.false_eq_true, if_false] at hsu'
              exact ih hrest _ u (hsu'.trans hsu) hDu k hk hnow
            · simp only [htp, if_true] at hsu'
              exact ih hrest _ (a.now + 120) hsu' harm k hk hnow
  · intro s inp u prev htp hsu hle hpos hdelta
    rcases s with ⟨pos, su⟩
    simp only at hsu hpos
    subst hsu hpos
    simp [encoderStep, htp, Nat.not_lt.2 hle, hdelta]

/-- Witness for C3: part 2 at a concrete one-report trace inside the window
(deadline 200, report at instant 150: suppressed) and part 3 at a concrete
report after the window (deadline 50, report at instant 100: delta 5 emitted
as value 69). -/
theorem c3_encoder_touch_window_witness :
    (encoderTrace ⟨some 0, some 200⟩ [⟨150, false, 7⟩]).getD 0 none = none ∧
    (encoderStep ⟨some 0, some 50⟩ ⟨100, false, 5⟩).2 = some [0xB0, ENCODER_CC, 69] := by
  constructor
  · exact c3_encoder_touch_window.2.1 200 [⟨150, false, 7⟩] (by decide)
      ⟨some 0, some 200⟩ 200 rfl (by decide) 0 (by decide) (by decide)
  · have h := c3_encoder_touch_window.2.2 ⟨some 0, some 50⟩ ⟨100, false, 5⟩ 50 0
      rfl rfl (by decide) rfl (by decide)
    rw [h]
    decide

/-- C6: slider raw level 1 maps to Control-Change value 0 and raw level 201 to
value 127 under `(raw-1)*127/200` clamped to 127; a message is emitted iff the
raw level is nonzero and differs from the last observed level; and a repeated
identical raw level emits no further message. -/
theorem c6_slider_cc :
    (∀ last : Nat, last ≠ 1 → (sliderStep last 1).2.1 = some [0xB0, SLIDER_CC, 0]) ∧
    (∀ last : Nat, last ≠ 201 → (sliderStep last 201).2.1 = some [0xB0, SLIDER_CC, 127]) ∧
    (∀ last raw : Nat,
      (sliderStep last raw).2.1 ≠ none ↔ (raw ≠ 0 ∧ raw ≠ last)) ∧
    (∀ last raw : Nat, (sliderStep ((sliderStep last raw).1) raw).2.1 = none) := by
  refine ⟨?_, ?_, ?_, ?_⟩
  · intro last h
    simp [sliderStep, send_cc, Ne.symm h]
  · intro last h
    simp [sliderStep, send_cc, Ne.symm h]
  · intro last raw
    by_cases h : raw ≠ 0 ∧ raw ≠ last <;> simp [sliderStep, h]
  · intro last raw
    by_cases h : raw ≠ 0 ∧ raw ≠ last
    · simp [sliderStep, h]
    · by_cases h2 : raw ≠ 0 ∧ raw ≠ last <;> simp [sliderStep, h, h2]

/-- Witness for C6 at last = 0, raw = 1 and raw = 201. -/
theorem c6_slider_cc_witness :
    (0 : Nat) ≠ 1 ∧ (0 : Nat) ≠ 201 ∧
    (sliderStep 0 1).2.1 = some [0xB0, SLIDER_CC, 0] ∧
    (sliderStep 0 201).2.1 = some [0xB0, SLIDER_CC, 127] ∧
    ((sliderStep 0 100).2.1 ≠ none ↔ ((100 : Nat) ≠ 0 ∧ (100 : Nat) ≠ 0)) := by
  exact ⟨by decide, by decide, c6_slider_cc.1 0 (by decide),
    c6_slider_cc.2.1 0 (by decide), c6_slider_cc.2.2.1 0 100⟩

/-- C4 counterexample: at raw = 100 (last = 0) the code recomputes the chase
pattern with cnt = 12, and segment 10 -- which is neither the lit segment 12
nor the immediately preceding segment 11 -- is set to Dim, not Off as the
claim states. -/
theorem c4_counterexample :
    ((sliderStep 0 100).2.2.getD []).getD 10 Brightness.Off = Brightness.Dim ∧
    Brightness.Dim ≠ Brightness.Off ∧
    sliderCnt 100 = 12 ∧ (10 : Int) ≠ 12 ∧ (10 : Int) ≠ 12 - 1 := by
  decide

/-- C4 (amended): for every slider raw level in [1,201] that differs from the
last observed level, the recomputed 25-segment pattern sets segment
cnt = (raw-1+5)*25/200 - 1 (an i32 value, -1 when raw <= 3) to full
brightness, every segment with a smaller index to dim, and every segment with
a larger index off; in particular for raw in [1,3] no segment is lit at all. -/
theorem c4_slider_chase :
    (∀ last raw : Nat, raw ≠ 0 → raw ≠ last →
      (sliderStep last raw).2.2 = some (sliderChase raw)) ∧
    (∀ raw < 202, 1 ≤ raw → ∀ i < 25,
      (sliderChase raw).getD i Brightness.Off =
        (if (i : Int) = sliderCnt raw then Brightness.Normal
         else if (i : Int) < sliderCnt raw then Brightness.Dim
         else Brightness.Off)) := by
  constructor
  · intro last raw h1 h2
    simp [sliderStep, h1, h2]
  · decide

/-- Witness for C4 (amended) at last = 0, raw = 100, segments 10, 12 and 13:
segment 12 (= cnt) is Normal, segment 10 (< cnt) is Dim, segment 13 (> cnt)
is Off. -/
theorem c4_slider_chase_witness :
    (sliderStep 0 100).2.2 = some (sliderChase 100) ∧
    (sliderChase 100).getD 12 Brightness.Off = Brightness.Normal ∧
    (sliderChase 100).getD 10 Brightness.Off = Brightness.Dim ∧
    (sliderChase 100).getD 13 Brightness.Off = Brightness.Off := by
  refine ⟨c4_slider_chase.1 0 100 (by decide) (by decide), ?_, ?_, ?_⟩
  · have h := c4_slider_chase.2 100 (by decide) (by decide) 12 (by decide)
    rw [h]; decide
  · have h := c4_slider_chase.2 100 (by decide) (by decide) 10 (by decide)
    rw [h]; decide
  · have h := c4_slider_chase.2 100 (by decide) (by decide) 13 (by decide)
    rw [h]; decide

/-- C2 (the code violates the claim): a type-0x02 pad record whose pad index
has no NoteMap entry, or whose event-type nibble is not a known pad event
type, is not silently ignored: the decoder aborts.  At idx = 16 (with a valid
event nibble) the 16-entry pad/note table lookup is an out-of-bounds panic,
and at an unknown nibble (0xF0) `from_u8(...).unwrap()` panics; both are
modelled as Except.error. -/
theorem c2_pad_record_panics :
    processPadRecord defaultNotemaps Lights.new 16 0x10 100 =
      Except.error "index out of bounds" ∧
    processPadRecord defaultNotemaps Lights.new 0 0xF0 100 =
      Except.error "called Option::unwrap() on a None value" :=
  ⟨rfl, rfl⟩

/-- Evaluation of `processPadRecord` when all three lookups succeed. -/
theorem processPadRecord_ok (nm : List Nat) (l : Lights) (idx evt val : Nat)
    (pe : PadEventType) (pb : PadColors × Brightness) (N : Nat)
    (hpe : padEventFromU8 evt = some pe) (hpb : l.pads[idx]? = some pb)
    (hN : nm[idx]? = some N) :
    processPadRecord nm l idx evt val =
      (let b := match pe with
         | .NoteOn | .PressOn => Brightness.Normal
         | .NoteOff | .PressOff => Brightness.Off
         | .Aftertouch => if val > 0 then Brightness.Normal else Brightness.Off
       let st := if pb.2 ≠ b
         then (Lights.set_pad l idx PadColors.Blue b, true) else (l, false)
       let velocity := val >>> 5
       let velocity := if val > 0 ∧ velocity = 0 then 1 else velocity
       Except.ok (st.1, st.2,
         match pe with
         | .NoteOn | .PressOn => [send_note N velocity true]
         | .NoteOff | .PressOff => [send_note N velocity false]
         | .Aftertouch => [])) := by
  simp only [processPadRecord, hpe, Lights.get_pad, hpb, hN]
  cases pe <;> rfl

/-- C5: for every pad record with NoteMap entry N and 12-bit value val, a
PressOn or NoteOn event with val > 0 produces exactly one Note-On message
(status 0x90, channel 0) on note N with velocity max(1, val >> 5), and a
PressOff or NoteOff event produces exactly one Note-Off message (status 0x80,
channel 0) on note N. -/
theorem c5_pad_note_messages :
    ∀ (notemaps : List Nat) (lights : Lights) (idx evt val N : Nat)
      (pe : PadEventType),
      padEventFromU8 evt = some pe →
      idx < lights.pads.length → notemaps[idx]? = some N →
      (((pe = PadEventType.PressOn ∨ pe = PadEventType.NoteOn) → 0 < val →
        ∃ l2 ch, processPadRecord notemaps lights idx evt val =
          Except.ok (l2, ch, [[0x90, N, max 1 (val >>> 5)]])) ∧
       ((pe = PadEventType.PressOff ∨ pe = PadEventType.NoteOff) →
        ∃ l2 ch v, processPadRecord notemaps lights idx evt val =
          Except.ok (l2, ch, [[0x80, N, v]]))) := by
  intro nm l idx evt val N pe hpe hidx hN
  obtain ⟨pb, hpb⟩ : ∃ pb, l.pads[idx]? = some pb :=
    ⟨_, List.getElem?_eq_getElem hidx⟩
  constructor
  · intro hon hval
    have hv : (if val > 0 ∧ val >>> 5 = 0 then 1 else val >>> 5) =
        max 1 (val >>> 5) := by
      split <;> omega
    have hvpos : 0 < max 1 (val >>> 5) :=
      Nat.lt_of_lt_of_le Nat.one_pos (Nat.le_max_left 1 _)
    have hmsg : send_note N (if val > 0 ∧ val >>> 5 = 0 then 1
        else val >>> 5) true = [0x90, N, max 1 (val >>> 5)] := by
      rw [hv]
      simp [send_note, hvpos]
    rcases hon with h | h <;> subst h <;>
      rw [processPadRecord_ok nm l idx evt val _ pb N hpe hpb hN] <;>
      simp only [hmsg] <;>
      exact ⟨_, _, rfl⟩
  · intro hoff
    have hmsg : ∀ v : Nat, send_note N v false = [0x80, N, v] := by
      intro v
      simp [send_note]
    rcases hoff with h | h <;> subst h <;>
      rw [processPadRecord_ok nm l idx evt val _ pb N hpe hpb hN] <;>
      simp only [hmsg] <;>
      exact ⟨_, _, _, rfl⟩

/-- Witness for C5: pad index 3 (note 51 in the default map), PressOn with
value 64 (velocity 2), and NoteOff. -/
theorem c5_pad_note_messages_witness :
    padEventFromU8 0x40 = some PadEventType.PressOn ∧
    (3 : Nat) < Lights.new.pads.length ∧
    defaultNotemaps[3]? = some 51 ∧
    (∃ l2 ch, processPadRecord defaultNotemaps Lights.new 3 0x40 64 =
      Except.ok (l2, ch, [[0x90, 51, max 1 (64 >>> 5)]])) ∧
    (∃ l2 ch v, processPadRecord defaultNotemaps Lights.new 3 0x20 0 =
      Except.ok (l2, ch, [[0x80, 51, v]])) := by
  refine ⟨by decide, by decide, by decide, ?_, ?_⟩
  · exact (c5_pad_note_messages defaultNotemaps Lights.new 3 0x40 64 51
      PadEventType.PressOn (by decide) (by decide) (by decide)).1
      (Or.inl rfl) (by decide)
  · exact (c5_pad_note_messages defaultNotemaps Lights.new 3 0x20 0 51
      PadEventType.NoteOff (by decide) (by decide) (by decide)).2
      (Or.inr rfl)

theorem c8_aux :
    ∀ (be : Bool) (bl : Brightness), ∀ value < 128,
      ccBrightness be bl value =
        (if value = 0 then (if be then bl else Brightness.Off)
         else if value ≤ 42 then Brightness.Dim
         else if value ≤ 84 then Brightness.Normal
         else Brightness.Bright) := by
  intro be bl
  cases be <;> cases bl <;> decide

/-- C8: for every inbound 3-byte Control-Change on channel 0 with controller
cc in [20, 61) that maps to a button with an LED, the stored brightness is
dim for value 1-42, normal for 43-84, bright for 85-127, and off for value 0,
except that when backlight mode is enabled a computed Off brightness is
replaced by the configured backlight level. -/
theorem c8_button_led_brightness :
    ∀ (hasLight : Nat → Bool) (be : Bool) (bl : Brightness) (cc value : Nat),
      20 ≤ cc → cc < 61 → value ≤ 127 → hasLight (cc - 20) = true →
      midiCcLedUpdate hasLight be bl cc value =
        some (cc - 20,
          if value = 0 then (if be then bl else Brightness.Off)
          else if value ≤ 42 then Brightness.Dim
          else if value ≤ 84 then Brightness.Normal
          else Brightness.Bright) := by
  intro hasLight be bl cc value h1 h2 h3 h4
  have hcond : BUTTON_CC_OFFSET ≤ cc ∧ cc < BUTTON_CC_OFFSET + 41 := by
    constructor <;> (simp only [BUTTON_CC_OFFSET]; omega)
  have hb : buttonFromUsize (cc - BUTTON_CC_OFFSET) =
      some (cc - BUTTON_CC_OFFSET) := by
    rw [buttonFromUsize, if_pos]
    simp only [BUTTON_CC_OFFSET]
    omega
  rw [midiCcLedUpdate, if_pos hcond, hb]
  simp only [BUTTON_CC_OFFSET]
  rw [h4, if_pos rfl, c8_aux be bl value (by omega)]

/-- Witness for C8 at cc = 25, values 0 and 100, backlight enabled at Dim. -/
theorem c8_button_led_brightness_witness :
    midiCcLedUpdate (fun _ => true) true Brightness.Dim 25 0 =
      some (5, Brightness.Dim) ∧
    midiCcLedUpdate (fun _ => true) false Brightness.Dim 25 0 =
      some (5, Brightness.Off) ∧
    midiCcLedUpdate (fun _ => true) true Brightness.Dim 25 100 =
      some (5, Brightness.Bright) := by
  refine ⟨?_, ?_, ?_⟩
  · have h := c8_button_led_brightness (fun _ => true) true Brightness.Dim 25 0
      (by decide) (by decide) (by decide) rfl
    rw [h]
    decide
  · have h := c8_button_led_brightness (fun _ => true) false Brightness.Dim 25 0
      (by decide) (by decide) (by decide) rfl
    rw [h]
    decide
  · have h := c8_button_led_brightness (fun _ => true) true Brightness.Dim 25 100
      (by decide) (by decide) (by decide) rfl
    rw [h]
    decide

/-- C7: the exact SysEx frame F0 00 21 09 02 F7 resets the display buffer to
the all-blank pattern (every byte 0xFF), while any frame shorter than 6
bytes, or with a wrong 3-byte vendor prefix at offset 1, or with an unknown
command byte, leaves the display buffer completely unchanged. -/
theorem c7_sysex_clear :
    ∀ (msg : List Nat) (s : Screen), s.length = 512 →
      (msg = [0xF0, 0x00, 0x21, 0x09, 0x02, 0xF7] →
        handle_sysex msg s = List.replicate 512 0xFF) ∧
      (msg.length < 6 → handle_sysex msg s = s) ∧
      ((msg.drop 1).take 3 ≠ SYSEX_MANUFACTURER → handle_sysex msg s = s) ∧
      (msg.getD 4 0 ≠ SYSEX_CMD_TEXT → msg.getD 4 0 ≠ SYSEX_CMD_CLEAR →
        handle_sysex msg s = s) := by
  intro msg s hs
  refine ⟨?_, ?_, ?_, ?_⟩
  · intro hmsg
    subst hmsg
    show Screen.reset s = _
    rw [Screen.reset, List.map_const', hs]
  · intro h
    simp [handle_sysex, h]
  · intro h
    simp only [handle_sysex]
    by_cases hl : msg.length < 6
    · rw [if_pos hl]
    · rw [if_neg hl, if_pos h]
  · intro h1 h2
    simp only [handle_sysex]
    by_cases hl : msg.length < 6
    · rw [if_pos hl]
    · rw [if_neg hl]
      by_cases hp : (msg.drop 1).take 3 ≠ SYSEX_MANUFACTURER
      · rw [if_pos hp]
      · rw [if_neg hp, if_neg h1, if_neg h2]

/-- Witness for C7: the clear frame on a fresh buffer, a 5-byte frame, a
wrong-prefix frame, and an unknown-command frame. -/
theorem c7_sysex_clear_witness :
    handle_sysex [0xF0, 0x00, 0x21, 0x09, 0x02, 0xF7] Screen.new =
      List.replicate 512 0xFF ∧
    handle_sysex [0xF0, 0x00, 0x21, 0x09, 0x02] Screen.new = Screen.new ∧
    handle_sysex [0xF0, 0x7E, 0x21, 0x09, 0x02, 0xF7] Screen.new = Screen.new ∧
    handle_sysex [0xF0, 0x00, 0x21, 0x09, 0x7F, 0xF7] Screen.new = Screen.new := by
  refine ⟨(c7_sysex_clear _ Screen.new rfl).1 rfl,
          (c7_sysex_clear _ Screen.new rfl).2.1 (by decide),
          (c7_sysex_clear _ Screen.new rfl).2.2.1 (by decide),
          (c7_sysex_clear _ Screen.new rfl).2.2.2 (by decide) (by decide)⟩

/-- C10 counterexample: row 32 (< 64) at column 0 (< 128) computes byte index
512, which is NOT within the 512-byte buffer: `Screen::set` already goes out
of bounds at rows 32..63 (the buffer is 128 x 32 pixels, not 128 x 64). -/
theorem c10_counterexample :
    (32 : Nat) < 64 ∧ (0 : Nat) < 128 ∧
    Screen.byteIndex 32 0 = 512 ∧ ¬ Screen.byteIndex 32 0 < 512 ∧
    Screen.setChecked Screen.new 32 0 true =
      Except.error "index out of bounds" := by
  refine ⟨by decide, by decide, by decide, by decide, ?_⟩
  rfl

/-! Helper lemmas for the bounds-checked write path. -/

theorem exceptOkBind {α β : Type} (a : α) (f : α → Except String β) :
    (Except.ok a >>= f) = f a := rfl

theorem exceptErrorBind {α β : Type} (e : String) (f : α → Except String β) :
    ((Except.error e : Except String α) >>= f) = Except.error e := rfl

theorem Screen.length_set (s : Screen) (i j : Nat) (v : Bool) :
    (Screen.set s i j v).length = s.length := by
  simp [Screen.set]

theorem Screen.setChecked_ok (s : Screen) (i j : Nat) (v : Bool)
    (h : Screen.byteIndex i j < s.length) :
    Screen.setChecked s i j v = Except.ok (Screen.set s i j v) := by
  rw [Screen.setChecked, if_pos h]

/-- A fold of in-bounds checked writes over one glyph row succeeds and equals
the unchecked fold. -/
theorem foldlM_setChecked_ok (js : List Nat) (s : Screen) (a x : Nat)
    (f : Nat → Bool) (hs : s.length = 512)
    (hb : ∀ jx ∈ js, Screen.byteIndex a (jx + x) < 512) :
    js.foldlM (fun s j => Screen.setChecked s a (j + x) (f j)) s =
      Except.ok (js.foldl (fun s j => Screen.set s a (j + x) (f j)) s) ∧
    (js.foldl (fun s j => Screen.set s a (j + x) (f j)) s).length = 512 := by
  induction js generalizing s with
  | nil => exact ⟨rfl, hs⟩
  | cons j js ih =>
      rw [List.foldlM_cons, List.foldl_cons,
        Screen.setChecked_ok s a (j + x) (f j)
          (by rw [hs]; exact hb j (List.mem_cons_self j js)), exceptOkBind]
      exact ih (Screen.set s a (j + x) (f j))
        (by rw [Screen.length_set]; exact hs)
        (fun jx hm => hb jx (List.mem_cons_of_mem j hm))

/-- A checked glyph write whose 64 byte indices are all in bounds succeeds
and equals the unchecked write. -/
theorem write_glyphChecked_ok (s : Screen) (g : Glyph) (y x : Nat)
    (hs : s.length = 512)
    (hb : ∀ i < 8, ∀ j < 8, Screen.byteIndex (i + y) (j + x) < 512) :
    Font.write_glyphChecked s y x g 1 = Except.ok (Font.write_glyph s y x g 1) ∧
    (Font.write_glyph s y x g 1).length = 512 := by
  rw [Font.write_glyphChecked, Font.write_glyph]
  have main : ∀ (is : List Nat) (s : Screen), s.length = 512 →
      (∀ i ∈ is, i < 8) →
      (is.foldlM (fun s i => (List.range (8 * 1)).foldlM (fun s j =>
          Screen.setChecked s (i + y) (j + x) (glyphBit g (i / 1) (j / 1))) s) s =
        Except.ok (is.foldl (fun s i => (List.range (8 * 1)).foldl (fun s j =>
          Screen.set s (i + y) (j + x) (glyphBit g (i / 1) (j / 1))) s) s)) ∧
      ((is.foldl (fun s i => (List.range (8 * 1)).foldl (fun s j =>
          Screen.set s (i + y) (j + x) (glyphBit g (i / 1) (j / 1))) s) s).length = 512) := by
    intro is
    induction is with
    | nil => exact fun s hs _ => ⟨rfl, hs⟩
    | cons i is ih =>
        intro s hs hmem
        have hi : i < 8 := hmem i (List.mem_cons_self i is)
        have hrow := foldlM_setChecked_ok (List.range (8 * 1)) s (i + y) x
          (fun j => glyphBit g (i / 1) (j / 1)) hs
          (fun jx hm => hb i hi jx (by
            rw [List.mem_range] at hm
            omega))
        rw [List.foldlM_cons, List.foldl_cons, hrow.1, exceptOkBind]
        exact ih _ hrow.2 (fun i' hm => hmem i' (List.mem_cons_of_mem i hm))
  exact main (List.range (8 * 1)) s hs (fun i hm => by
    rw [List.mem_range] at hm
    omega)

/-- A checked glyph write at column 256 of text row 12 goes out of bounds:
rows 12-15 land in bytes 384..391, but row 16 computes byte index
2*128 + 256 = 512, one past the 512-byte buffer. -/
theorem write_glyphChecked_err (s : Screen) (g : Glyph) (hs : s.length = 512) :
    Font.write_glyphChecked s 12 256 g 1 = Except.error "index out of bounds" := by
  rw [Font.write_glyphChecked]
  rw [show List.range (8 * 1) = [0, 1, 2, 3, 4, 5, 6, 7] from rfl]
  have row : ∀ (i : Nat) (s : Screen), s.length = 512 → i < 4 →
      ([0, 1, 2, 3, 4, 5, 6, 7].foldlM (fun s j =>
        Screen.setChecked s (i + 12) (j + 256) (glyphBit g (i / 1) (j / 1))) s =
        Except.ok ([0, 1, 2, 3, 4, 5, 6, 7].foldl (fun s j =>
          Screen.set s (i + 12) (j + 256) (glyphBit g (i / 1) (j / 1))) s)) ∧
      (([0, 1, 2, 3, 4, 5, 6, 7].foldl (fun s j =>
        Screen.set s (i + 12) (j + 256) (glyphBit g (i / 1) (j / 1))) s).length = 512) := by
    intro i s hs hi
    exact foldlM_setChecked_ok [0, 1, 2, 3, 4, 5, 6, 7] s (i + 12) 256 _ hs
      (fun jx hm => by
        simp only [Screen.byteIndex]
        fin_cases hm <;> omega)
  rw [List.foldlM_cons, (row 0 s hs (by omega)).1, exceptOkBind]
  rw [List.foldlM_cons, (row 1 _ (row 0 s hs (by omega)).2 (by omega)).1, exceptOkBind]
  rw [List.foldlM_cons,
    (row 2 _ (row 1 _ (row 0 s hs (by omega)).2 (by omega)).2 (by omega)).1, exceptOkBind]
  rw [List.foldlM_cons,
    (row 3 _ (row 2 _ (row 1 _ (row 0 s hs (by omega)).2 (by omega)).2 (by omega)).2
      (by omega)).1, exceptOkBind]
  rw [List.foldlM_cons]
  rw [List.foldlM_cons]
  rw [show Screen.setChecked _ (4 + 12) (0 + 256) (glyphBit g (4 / 1) (0 / 1)) =
    Except.error "index out of bounds" from by
      rw [Screen.setChecked, if_neg]
      rw [(row 3 _ (row 2 _ (row 1 _ (row 0 s hs (by omega)).2 (by omega)).2
        (by omega)).2 (by omega)).2]
      simp [Screen.byteIndex]]
  rfl

/-- A checked character write at y = 12 succeeds whenever the glyph's eight
columns stay below column 256 (i.e. within byte indices < 512 for rows
12-19). -/
theorem write_charChecked_ok (s : Screen) (ch : Char) (x : Nat)
    (hs : s.length = 512) (hx : x + 8 ≤ 256) :
    Font.write_charChecked s 12 x ch 1 =
      Except.ok (Font.write_char s 12 x ch 1) ∧
    (Font.write_char s 12 x ch 1).length = 512 := by
  rw [Font.write_charChecked, Font.write_char]
  cases hg : Font.glyphFor ch with
  | none => exact ⟨rfl, hs⟩
  | some g =>
      exact write_glyphChecked_ok s g 12 x hs (by
        intro i hi j hj
        simp only [Screen.byteIndex]
        omega)

/-- A checked 'A' write at column 256 errors. -/
theorem write_charChecked_err (s : Screen) (hs : s.length = 512) :
    Font.write_charChecked s 12 256 'A' 1 =
      Except.error "index out of bounds" := by
  rw [Font.write_charChecked]
  rw [show Font.glyphFor 'A' = some (LETTERS.getD 0 []) from rfl]
  exact write_glyphChecked_err s _ hs

/-- A checked text fold whose characters all fit below column 256
succeeds. -/
theorem foldlM_charChecked_ok (ps : List (Nat × Char)) (s : Screen) (x : Nat)
    (hs : s.length = 512) (hb : ∀ p ∈ ps, x + p.1 * (8 * 1) + 8 ≤ 256) :
    ∃ s2, (ps.foldlM (fun s p =>
        Font.write_charChecked s 12 (x + p.1 * (8 * 1)) p.2 1) s) =
      Except.ok s2 ∧ s2.length = 512 := by
  induction ps generalizing s with
  | nil => exact ⟨s, rfl, hs⟩
  | cons p ps ih =>
      have hc := write_charChecked_ok s p.2 (x + p.1 * (8 * 1)) hs
        (hb p (List.mem_cons_self p ps))
      rw [List.foldlM_cons, hc.1, exceptOkBind]
      exact ih _ hc.2 (fun q hm => hb q (List.mem_cons_of_mem p hm))

/-- Rendering 33 supported characters through the checked path goes out of
bounds at the 33rd character (column 256, text row 16, byte index 512). -/
theorem render_screen_textChecked_33_err :
    render_screen_textChecked (List.replicate 33 'A') Screen.new =
      Except.error "index out of bounds" := by
  rw [render_screen_textChecked]
  have hreset : (Screen.reset Screen.new).length = 512 := by
    rw [Screen.reset, List.length_map]
    rfl
  rw [show (if (List.replicate 33 'A').length * 8 * 1 < 128 then
      (128 - (List.replicate 33 'A').length * 8 * 1) / 2 else 0) = 0 from rfl]
  rw [Font.write_strChecked]
  rw [show (List.replicate 33 'A').enum =
    (List.replicate 32 'A').enum ++ [(32, 'A')] from by decide]
  rw [List.foldlM_append]
  obtain ⟨s2, h2, hlen2⟩ := foldlM_charChecked_ok ((List.replicate 32 'A').enum)
    (Screen.reset Screen.new) 0 hreset (by decide)
  rw [h2, exceptOkBind, List.foldlM_cons]
  rw [show (0 + 32 * (8 * 1)) = 256 from rfl]
  rw [write_charChecked_err s2 hlen2, exceptErrorBind]

/-- C10 (amended): `Screen::set` is total only on rows below 32 (the buffer
is 512 bytes = 128 x 32 pixels, so `(i/8)*128 + j` exceeds the buffer already
at row 32), and a well-formed SysEx set-text frame whose payload has more
than 32 supported characters at scale 1 drives the column past the buffer
bound, so the write to the display buffer indexes out of bounds instead of
being ignored or truncated. -/
theorem c10_set_bounds :
    (∀ (s : Screen), s.length = 512 → ∀ i < 32, ∀ j < 128,
      Screen.byteIndex i j < 512 ∧
      ∀ v, Screen.setChecked s i j v = Except.ok (Screen.set s i j v)) ∧
    render_screen_textChecked (List.replicate 33 'A') Screen.new =
      Except.error "index out of bounds" := by
  constructor
  · intro s hs i hi j hj
    have hb : Screen.byteIndex i j < 512 := by
      simp only [Screen.byteIndex]
      omega
    exact ⟨hb, fun v => Screen.setChecked_ok s i j v (by rw [hs]; exact hb)⟩
  · exact render_screen_textChecked_33_err

/-- Witness for C10 (amended) at row 31, column 127 on a fresh buffer. -/
theorem c10_set_bounds_witness :
    Screen.byteIndex 31 127 < 512 ∧
    Screen.setChecked Screen.new 31 127 true =
      Except.ok (Screen.set Screen.new 31 127 true) := by
  have h := c10_set_bounds.1 Screen.new rfl 31 (by decide) 127 (by decide)
  exact ⟨h.1, h.2 true⟩

/-! Pixel-level laws of `Screen.set` / `Screen.get`. -/

theorem Screen.mask_eq (i : Nat) : Screen.mask i = 2 ^ (i % 8) := by
  rw [Screen.mask, Nat.shiftLeft_eq, one_mul]

theorem and_xor_mask_self (b k : Nat) (hk : k < 8) :
    (b &&& (2 ^ k ^^^ 255)) &&& 2 ^ k = 0 := by
  apply Nat.eq_of_testBit_eq
  intro t
  have h255 : (255 : Nat) = 2 ^ 8 - 1 := by norm_num
  simp only [Nat.testBit_and, Nat.testBit_xor, Nat.zero_testBit,
    Nat.testBit_two_pow, h255, Nat.testBit_two_pow_sub_one]
  by_cases h : k = t
  · subst h
    simp [hk]
  · simp [h]

theorem or_mask_self (b k : Nat) : (b ||| 2 ^ k) &&& 2 ^ k ≠ 0 := by
  intro h
  have h2 := congrArg (fun x => Nat.testBit x k) h
  simp [Nat.testBit_and, Nat.testBit_or, Nat.testBit_two_pow,
    Nat.zero_testBit] at h2

theorem or_mask_other (b k m : Nat) (hkm : k ≠ m) :
    (b ||| 2 ^ k) &&& 2 ^ m = b &&& 2 ^ m := by
  apply Nat.eq_of_testBit_eq
  intro t
  simp only [Nat.testBit_and, Nat.testBit_or, Nat.testBit_two_pow]
  by_cases h : m = t
  · subst h
    simp [hkm]
  · simp [h]

theorem and_xor_mask_other (b k m : Nat) (hkm : k ≠ m) (hm : m < 8) :
    (b &&& (2 ^ k ^^^ 255)) &&& 2 ^ m = b &&& 2 ^ m := by
  apply Nat.eq_of_testBit_eq
  intro t
  have h255 : (255 : Nat) = 2 ^ 8 - 1 := by norm_num
  simp only [Nat.testBit_and, Nat.testBit_xor, Nat.testBit_two_pow, h255,
    Nat.testBit_two_pow_sub_one]
  by_cases h : m = t
  · subst h
    simp [hkm, hm]
  · simp [h]

/-- Reading back the pixel just written. -/
theorem Screen.get_set_self (s : Screen) (i j : Nat) (v : Bool)
    (hidx : Screen.byteIndex i j < s.length) :
    Screen.get (Screen.set s i j v) i j = v := by
  rw [Screen.get, Screen.set]
  rw [List.getD_eq_getElem?_getD, List.getElem?_set_eq_of_lt _ hidx,
    Option.getD_some, Screen.mask_eq]
  cases v
  · simp only [Bool.false_eq, beq_eq_false_iff_ne, ne_eq]
    exact or_mask_self _ _
  · simp [and_xor_mask_self _ _ (Nat.mod_lt i (by norm_num))]

/-- Writing one pixel leaves every other pixel unchanged (columns below
128). -/
theorem Screen.get_set_other (s : Screen) (i j i' j' : Nat) (v : Bool)
    (hj : j < 128) (hj' : j' < 128) (hne : ¬(i = i' ∧ j = j')) :
    Screen.get (Screen.set s i j v) i' j' = Screen.get s i' j' := by
  rw [Screen.get, Screen.get, Screen.set]
  simp only [List.getD_eq_getElem?_getD, List.getElem?_set]
  by_cases hb : Screen.byteIndex i j = Screen.byteIndex i' j'
  · have hm : i % 8 ≠ i' % 8 := by
      simp only [Screen.byteIndex] at hb
      omega
    rw [← hb, if_pos rfl]
    by_cases hlen : Screen.byteIndex i j < s.length
    · rw [if_pos hlen, Option.getD_some, Screen.mask_eq, Screen.mask_eq]
      cases v
      · rw [if_neg (by simp), or_mask_other _ _ _ hm]
      · rw [if_pos rfl, and_xor_mask_other _ _ _ hm
          (Nat.mod_lt i' (by norm_num))]
    · rw [if_neg hlen, List.getElem?_eq_none (by omega)]
  · rw [if_neg hb]

theorem length_row_fold (js : List Nat) (s : Screen) (a x : Nat)
    (f : Nat → Bool) :
    (js.foldl (fun s j => Screen.set s a (j + x) (f j)) s).length =
      s.length := by
  induction js generalizing s with
  | nil => rfl
  | cons j js ih => rw [List.foldl_cons, ih, Screen.length_set]

/-- Reading back after a fold of writes along one text row: positions hit by
the fold show the written bit, all others are untouched. -/
theorem row_fold_get (js : List Nat) (s : Screen) (f : Nat → Bool)
    (a x i' j' : Nat) (ha : a < 32) (hs : s.length = 512) (hj' : j' < 128)
    (hjs : ∀ jx ∈ js, jx + x < 128) :
    Screen.get (js.foldl (fun s j => Screen.set s a (j + x) (f j)) s) i' j' =
      if i' = a ∧ ∃ jx ∈ js, j' = jx + x then f (j' - x)
      else Screen.get s i' j' := by
  induction js generalizing s with
  | nil => simp
  | cons j js ih =>
      rw [List.foldl_cons]
      have hjx : j + x < 128 := hjs j (List.mem_cons_self j js)
      have hrest : ∀ jx ∈ js, jx + x < 128 :=
        fun jx h => hjs jx (List.mem_cons_of_mem j h)
      rw [ih (Screen.set s a (j + x) (f j))
        (by rw [Screen.length_set]; exact hs) hrest]
      by_cases hin : i' = a ∧ ∃ jx ∈ js, j' = jx + x
      · rw [if_pos hin,
          if_pos ⟨hin.1, hin.2.elim (fun jx h =>
            ⟨jx, List.mem_cons_of_mem j h.1, h.2⟩)⟩]
      · rw [if_neg hin]
        by_cases hfst : i' = a ∧ j' = j + x
        · rw [hfst.1, hfst.2]
          rw [Screen.get_set_self s a (j + x) (f j)
            (by rw [hs]; simp only [Screen.byteIndex]; omega)]
          rw [if_pos ⟨rfl, j, List.mem_cons_self j js, rfl⟩,
            Nat.add_sub_cancel]
        · rw [Screen.get_set_other s a (j + x) i' j' (f j) hjx hj'
            (fun hc => hfst ⟨hc.1.symm, hc.2.symm⟩)]
          rw [if_neg (fun hc => hc.2.elim (fun jx hx2 =>
            (List.mem_cons.mp hx2.1).elim
              (fun he => hfst ⟨hc.1, by rw [hx2.2, he]⟩)
              (fun hmem => hin ⟨hc.1, jx, hmem, hx2.2⟩)))]

/-- Reading back after a fold of glyph-row writes. -/
theorem glyph_rows_fold_get (g : Glyph) (y x : Nat) :
    ∀ (is : List Nat) (s : Screen) (i' j' : Nat),
      s.length = 512 → (∀ ix ∈ is, ix + y < 32) → x + 8 ≤ 128 → j' < 128 →
      Screen.get (is.foldl (fun s i => (List.range (8 * 1)).foldl (fun s j =>
          Screen.set s (i + y) (j + x) (glyphBit g (i / 1) (j / 1))) s) s) i' j' =
        if (∃ ix ∈ is, i' = ix + y) ∧ x ≤ j' ∧ j' < x + 8 then
          glyphBit g (i' - y) (j' - x)
        else Screen.get s i' j' := by
  intro is
  induction is with
  | nil =>
      intro s i' j' _ _ _ _
      simp
  | cons i is ih =>
      intro s i' j' hs hmem hx hj'
      rw [List.foldl_cons]
      have hiy : i + y < 32 := hmem i (List.mem_cons_self i is)
      rw [ih _ i' j' (by rw [length_row_fold]; exact hs)
        (fun i2 h => hmem i2 (List.mem_cons_of_mem i h)) hx hj']
      have hex : (∃ jx ∈ List.range (8 * 1), j' = jx + x) ↔
          (x ≤ j' ∧ j' < x + 8) := by
        constructor
        · rintro ⟨jx, hmem2, rfl⟩
          rw [List.mem_range] at hmem2
          omega
        · intro h
          exact ⟨j' - x, by rw [List.mem_range]; omega, by omega⟩
      by_cases hin : (∃ ix ∈ is, i' = ix + y) ∧ x ≤ j' ∧ j' < x + 8
      · rw [if_pos hin, if_pos ⟨hin.1.elim (fun ix h =>
          ⟨ix, List.mem_cons_of_mem i h.1, h.2⟩), hin.2⟩]
      · rw [if_neg hin]
        rw [row_fold_get (List.range (8 * 1)) s _ (i + y) x i' j' hiy hs hj'
          (fun jx hm => by rw [List.mem_range] at hm; omega)]
        by_cases hfst : i' = i + y ∧ x ≤ j' ∧ j' < x + 8
        · rw [if_pos ⟨hfst.1, hex.mpr hfst.2⟩]
          rw [if_pos ⟨⟨i, List.mem_cons_self i is, hfst.1⟩, hfst.2⟩]
          simp only [Nat.div_one]
          rw [hfst.1, Nat.add_sub_cancel]
        · rw [if_neg (fun hc => hfst ⟨hc.1, hex.mp hc.2⟩)]
          rw [if_neg (fun hc => hc.1.elim (fun ix h =>
            (List.mem_cons.mp h.1).elim
              (fun he => hfst ⟨by rw [h.2, he], hc.2⟩)
              (fun hm2 => hin ⟨⟨ix, hm2, h.2⟩, hc.2⟩)))]

/-- Reading back after `Font::write_glyph` at scale 1: inside the 8x8 block
the glyph bit, outside it the previous pixel. -/
theorem write_glyph_get (s : Screen) (g : Glyph) (y x i' j' : Nat)
    (hs : s.length = 512) (hy : y + 8 ≤ 32) (hx : x + 8 ≤ 128)
    (hj' : j' < 128) :
    Screen.get (Font.write_glyph s y x g 1) i' j' =
      if y ≤ i' ∧ i' < y + 8 ∧ x ≤ j' ∧ j' < x + 8 then
        glyphBit g (i' - y) (j' - x)
      else Screen.get s i' j' := by
  rw [Font.write_glyph]
  rw [glyph_rows_fold_get g y x (List.range (8 * 1)) s i' j' hs
    (fun ix h => by rw [List.mem_range] at h; omega) hx hj']
  have hex : (∃ ix ∈ List.range (8 * 1), i' = ix + y) ↔
      (y ≤ i' ∧ i' < y + 8) := by
    constructor
    · rintro ⟨ix, hmem2, rfl⟩
      rw [List.mem_range] at hmem2
      omega
    · intro h
      exact ⟨i' - y, by rw [List.mem_range]; omega, by omega⟩
  by_cases h : y ≤ i' ∧ i' < y + 8 ∧ x ≤ j' ∧ j' < x + 8
  · rw [if_pos ⟨hex.mpr ⟨h.1, h.2.1⟩, h.2.2⟩, if_pos h]
  · rw [if_neg (fun hc => h ⟨(hex.mp hc.1).1, (hex.mp hc.1).2, hc.2⟩),
      if_neg h]

theorem length_write_glyph (s : Screen) (g : Glyph) (y x : Nat) :
    (Font.write_glyph s y x g 1).length = s.length := by
  rw [Font.write_glyph]
  have main : ∀ (is : List Nat) (s : Screen),
      ((is.foldl (fun s i => (List.range (8 * 1)).foldl (fun s j =>
        Screen.set s (i + y) (j + x) (glyphBit g (i / 1) (j / 1))) s) s)).length =
      s.length := by
    intro is
    induction is with
    | nil => intro s; rfl
    | cons i is ih =>
        intro s
        rw [List.foldl_cons, ih, length_row_fold]
  exact main _ s

theorem length_write_char (s : Screen) (ch : Char) (y x : Nat) :
    (Font.write_char s y x ch 1).length = s.length := by
  rw [Font.write_char]
  cases Font.glyphFor ch with
  | none => rfl
  | some g => exact length_write_glyph s g y x

/-- Reading back after `Font::write_char` for a supported character. -/
theorem write_char_get (s : Screen) (ch : Char) (g : Glyph) (y x i' j' : Nat)
    (hg : Font.glyphFor ch = some g) (hs : s.length = 512) (hy : y + 8 ≤ 32)
    (hx : x + 8 ≤ 128) (hj' : j' < 128) :
    Screen.get (Font.write_char s y x ch 1) i' j' =
      if y ≤ i' ∧ i' < y + 8 ∧ x ≤ j' ∧ j' < x + 8 then
        glyphBit g (i' - y) (j' - x)
      else Screen.get s i' j' := by
  rw [Font.write_char, hg]
  exact write_glyph_get s g y x i' j' hs hy hx hj'

/-- Shifting the enumeration start of the `write_str` fold by one is the same
as shifting the base column by one character width. -/
theorem write_str_shift (y scale : Nat) :
    ∀ (text : List Char) (n : Nat) (s : Screen) (x : Nat),
      (List.enumFrom (n + 1) text).foldl
        (fun s p => Font.write_char s y (x + p.1 * (8 * scale)) p.2 scale) s =
      (List.enumFrom n text).foldl
        (fun s p =>
          Font.write_char s y ((x + 8 * scale) + p.1 * (8 * scale)) p.2 scale)
        s := by
  intro text
  induction text with
  | nil => intro n s x; rfl
  | cons ch rest ih =>
      intro n s x
      rw [List.enumFrom_cons, List.enumFrom_cons, List.foldl_cons,
        List.foldl_cons]
      simp only
      rw [show x + (n + 1) * (8 * scale) = (x + 8 * scale) + n * (8 * scale)
        by ring]
      exact ih (n + 1) _ x

/-- `Font::write_str` writes its first character at x and the rest one
character width further right. -/
theorem write_str_cons (s : Screen) (y x : Nat) (ch : Char)
    (rest : List Char) (scale : Nat) :
    Font.write_str s y x (ch :: rest) scale =
      Font.write_str (Font.write_char s y x ch scale) y (x + 8 * scale) rest
        scale := by
  rw [Font.write_str, Font.write_str, List.enum_cons, List.foldl_cons]
  simp only [Nat.zero_mul, Nat.add_zero]
  exact write_str_shift y scale rest 0 (Font.write_char s y x ch scale) x

/-- `textPixel` at a column past the first glyph defers to the rest of the
text. -/
theorem textPixel_cons_of_ge (ch : Char) (rest : List Char) (r c : Nat)
    (hc : 8 ≤ c) :
    textPixel (ch :: rest) r c = textPixel rest r (c - 8) := by
  rw [textPixel, textPixel]
  rw [show c / 8 = (c - 8) / 8 + 1 by omega, show c % 8 = (c - 8) % 8 by omega,
    List.getD_cons_succ]

/-- `textPixel` within the first glyph is that glyph's bit. -/
theorem textPixel_cons_of_lt (ch : Char) (g : Glyph) (rest : List Char)
    (r c : Nat) (hc : c < 8) (hg : Font.glyphFor ch = some g) :
    textPixel (ch :: rest) r c = glyphBit g r c := by
  rw [textPixel]
  rw [show c / 8 = 0 by omega, List.getD_cons_zero, hg,
    show c % 8 = c by omega]

/-- Reading back after `Font::write_str` at y = 12, scale 1, all characters
supported: inside the text block the glyph-table pixel, outside it the
previous buffer pixel. -/
theorem write_str_get :
    ∀ (text : List Char) (s : Screen) (x i' j' : Nat),
      s.length = 512 → x + 8 * text.length ≤ 128 →
      (∀ ch ∈ text, (Font.glyphFor ch).isSome) → j' < 128 →
      Screen.get (Font.write_str s 12 x text 1) i' j' =
        if 12 ≤ i' ∧ i' < 20 ∧ x ≤ j' ∧ j' < x + 8 * text.length then
          textPixel text (i' - 12) (j' - x)
        else Screen.get s i' j' := by
  intro text
  induction text with
  | nil =>
      intro s x i' j' _ _ _ _
      rw [if_neg (by simp only [List.length_nil]; omega)]
      rfl
  | cons ch rest ih =>
      intro s x i' j' hs hx hsup hj'
      obtain ⟨g, hg⟩ := Option.isSome_iff_exists.mp
        (hsup ch (List.mem_cons_self ch rest))
      have hsup' : ∀ c ∈ rest, (Font.glyphFor c).isSome :=
        fun c hm => hsup c (List.mem_cons_of_mem ch hm)
      have hlen : (List.length rest) + 1 = (ch :: rest).length := rfl
      rw [write_str_cons]
      rw [ih (Font.write_char s 12 x ch 1) (x + 8 * 1) i' j'
        (by rw [length_write_char]; exact hs)
        (by simp only [List.length_cons] at hx; omega) hsup' hj']
      rw [write_char_get s ch g 12 x i' j' hg hs (by omega)
        (by simp only [List.length_cons] at hx; omega) hj']
      by_cases h1 : 12 ≤ i' ∧ i' < 20 ∧ x + 8 * 1 ≤ j' ∧
          j' < (x + 8 * 1) + 8 * rest.length
      · rw [if_pos h1]
        rw [if_pos (by simp only [List.length_cons]; omega)]
        rw [textPixel_cons_of_ge ch rest _ _ (by omega)]
        rw [show j' - x - 8 = j' - (x + 8 * 1) by omega]
      · rw [if_neg h1]
        by_cases h2 : 12 ≤ i' ∧ i' < 12 + 8 ∧ x ≤ j' ∧ j' < x + 8
        · rw [if_pos h2]
          rw [if_pos (by simp only [List.length_cons]; omega)]
          rw [textPixel_cons_of_lt ch g rest _ _ (by omega) hg]
        · rw [if_neg h2]
          rw [if_neg (by simp only [List.length_cons]; omega)]

/-- Every pixel of a freshly reset buffer is blank. -/
theorem get_reset_new (i' j' : Nat) (hi' : i' < 32) (hj' : j' < 128) :
    Screen.get (Screen.reset Screen.new) i' j' = false := by
  rw [Screen.reset, Screen.new, List.map_const', List.length_replicate]
  rw [Screen.get, List.getD_eq_getElem?_getD, List.getElem?_replicate,
    if_pos (by simp only [Screen.byteIndex]; omega), Option.getD_some,
    Screen.mask_eq]
  have h255 : (255 : Nat) &&& 2 ^ (i' % 8) = 2 ^ (i' % 8) := by
    apply Nat.eq_of_testBit_eq
    intro t
    have he : (255 : Nat) = 2 ^ 8 - 1 := by norm_num
    simp only [Nat.testBit_and, he, Nat.testBit_two_pow_sub_one,
      Nat.testBit_two_pow]
    by_cases h : i' % 8 = t
    · subst h
      have hm8 : i' % 8 < 8 := Nat.mod_lt i' (by norm_num)
      simp [hm8]
    · simp [h]
  rw [h255]
  simp only [beq_eq_false_iff_ne, ne_eq]
  exact Nat.pos_iff_ne_zero.mp (Nat.pos_pow_of_pos _ (by norm_num))

theorem length_reset_new : (Screen.reset Screen.new).length = 512 := by
  rw [Screen.reset, Screen.new, List.map_const', List.length_replicate,
    List.length_replicate]

/-- Digits and letters all have a glyph-table entry. -/
theorem glyphFor_isSome_of_alnum (ch : Char)
    (h : ('0' ≤ ch ∧ ch ≤ '9') ∨ ('A' ≤ ch ∧ ch ≤ 'Z') ∨
      ('a' ≤ ch ∧ ch ≤ 'z')) :
    (Font.glyphFor ch).isSome := by
  rw [Font.glyphFor]
  rcases h with h | h | h
  · rw [if_pos h]
    have h9 : ch.toNat ≤ 57 := by
      have := h.2
      rw [Char.le_def] at this
      exact this
    have h0 : 48 ≤ ch.toNat := by
      have := h.1
      rw [Char.le_def] at this
      exact this
    rw [List.getElem?_eq_getElem (by
      rw [show DIGITS.length = 10 from rfl, show ('0').toNat = 48 from rfl]
      omega)]
    rfl
  · rw [if_neg (fun hc => by
      have h1 := hc.1
      have h2 := h.1
      rw [Char.le_def] at h1 h2
      have : (65 : Nat) ≤ ch.toNat := h2
      have : ch.toNat ≤ 57 := hc.2
      omega)]
    rw [if_pos h]
    have hz : ch.toNat ≤ 90 := by
      have := h.2
      rw [Char.le_def] at this
      exact this
    have ha : 65 ≤ ch.toNat := by
      have := h.1
      rw [Char.le_def] at this
      exact this
    rw [List.getElem?_eq_getElem (by
      rw [show LETTERS.length = 26 from rfl, show ('A').toNat = 65 from rfl]
      omega)]
    rfl
  · rw [if_neg (fun hc => by
      have h1 := hc.2
      have h2 := h.1
      rw [Char.le_def] at h1 h2
      have : (97 : Nat) ≤ ch.toNat := h2
      have : ch.toNat ≤ 57 := h1
      omega)]
    rw [if_neg (fun hc => by
      have h1 := hc.2
      have h2 := h.1
      rw [Char.le_def] at h1 h2
      have : (97 : Nat) ≤ ch.toNat := h2
      have : ch.toNat ≤ 90 := h1
      omega)]
    rw [if_pos h]
    have hz : ch.toNat ≤ 122 := by
      have := h.2
      rw [Char.le_def] at this
      exact this
    have ha : 97 ≤ ch.toNat := by
      have := h.1
      rw [Char.le_def] at this
      exact this
    rw [List.getElem?_eq_getElem (by
      rw [show LETTERS.length = 26 from rfl, show ('a').toNat = 97 from rfl]
      omega)]
    rfl

/-- C9: rendering a text of at most 4 characters, each a digit or letter,
into a freshly reset display buffer and reading pixels back with the
buffer's pixel test yields a horizontally centered block of 8x8 glyphs
(rows 12-19, starting at column (128 - 8*n)/2 for n characters) whose
lit/unlit pixels match the glyph-table entries bit for bit, with every pixel
outside the block blank. -/
theorem c9_render_text_roundtrip :
    ∀ (text : List Char), text.length ≤ 4 →
      (∀ ch ∈ text, ('0' ≤ ch ∧ ch ≤ '9') ∨ ('A' ≤ ch ∧ ch ≤ 'Z') ∨
        ('a' ≤ ch ∧ ch ≤ 'z')) →
      ∀ i' < 32, ∀ j' < 128,
        Screen.get (render_screen_text text Screen.new) i' j' =
          if 12 ≤ i' ∧ i' < 20 ∧ (128 - 8 * text.length) / 2 ≤ j' ∧
              j' < (128 - 8 * text.length) / 2 + 8 * text.length then
            textPixel text (i' - 12) (j' - (128 - 8 * text.length) / 2)
          else false := by
  intro text hlen hsup i' hi' j' hj'
  simp only [render_screen_text]
  rw [show (if text.length * 8 * 1 < 128 then (128 - text.length * 8 * 1) / 2
      else 0) = (128 - 8 * text.length) / 2 from by
    rw [if_pos (by omega), show text.length * 8 * 1 = 8 * text.length from
      by ring]]
  rw [write_str_get text (Screen.reset Screen.new)
    ((128 - 8 * text.length) / 2) i' j' length_reset_new (by omega)
    (fun ch hm => glyphFor_isSome_of_alnum ch (hsup ch hm)) hj']
  rw [get_reset_new i' j' hi' hj']

/-- Witness for C9 with the text "42": the block starts at column 56; the
pixel at (12, 57) is row 0, column 1 of the glyph for '4' (lit), and the
pixel at (0, 0) lies outside the block (blank). -/
theorem c9_render_text_roundtrip_witness :
    Screen.get (render_screen_text ['4', '2'] Screen.new) 12 57 =
      textPixel ['4', '2'] 0 1 ∧
    textPixel ['4', '2'] 0 1 = true ∧
    Screen.get (render_screen_text ['4', '2'] Screen.new) 0 0 = false := by
  refine ⟨?_, by decide, ?_⟩
  · have h := c9_render_text_roundtrip ['4', '2'] (by decide) (by decide)
      12 (by decide) 57 (by decide)
    rw [h]
    decide
  · have h := c9_render_text_roundtrip ['4', '2'] (by decide) (by decide)
      0 (by decide) 0 (by decide)
    rw [h]
    decide
